import Mathlib

/-!
Verification of the Hamburg '84 generation pipeline.

This file gives a shallow embedding, in Lean 4, of the two core pieces of the
repository: the Gemini service layer (`src/services/geminiService.ts`: the
retry wrapper `callGeminiWithRetry`, the response processing
`processGeminiResponse`, and the input validation in `generatePimpImage`) and
the application layer (`src/App.tsx`: the bounded-concurrency generation run
of `handleGenerateClick`, the regeneration handler `handleRegeneratePimp`, the
download guard `handleDownloadLookbook`, and the lookbook layout engine
`createLookbookPage`).  Effects are made explicit: the remote Gemini call is
an oracle of outcomes, thrown JavaScript exceptions become `Except` /
explicit result constructors, JavaScript's cooperative interleaving of the
two workers becomes a small-step relation driven by an explicit schedule, and
`Math.random()` draws become an explicit stream of real numbers.
-/

namespace Hamburg84

/-! ### Gemini response model (`@google/genai` surface used by the code)

`processGeminiResponse` only reads `response.candidates?.[0]?.content?.parts`
(looking for a part with `inlineData`) and `response.text`; we model exactly
that shape, with every optional-chaining step an `Option`. -/

/-- An inline data blob of a response part: `{ mimeType, data }`. -/
structure InlineData where
  mimeType : String
  data : String
deriving DecidableEq

/-- One part of a candidate's content; `inlineData` is optional. -/
structure ResponsePart where
  inlineData : Option InlineData
deriving DecidableEq

/-- A candidate's `content`, with its optional `parts` array. -/
structure ContentBlock where
  parts : Option (List ResponsePart)
deriving DecidableEq

/-- One response candidate, with its optional `content`. -/
structure Candidate where
  content : Option ContentBlock
deriving DecidableEq

/-- A `GenerateContentResponse` as used by the code: the optional
`candidates` array and the text accessor `response.text` (which yields
`undefined`, here `none`, when there is no text). -/
structure GenResponse where
  candidates : Option (List Candidate)
  text : Option String
deriving DecidableEq

/-- `response.candidates?.[0]?.content?.parts?.find(part => part.inlineData)`,
followed by reading that part's `inlineData`. -/
def firstInlineData (response : GenResponse) : Option InlineData :=
  match response.candidates with
  | none => none
  | some cands =>
    match cands.head? with
    | none => none
    | some cand =>
      match cand.content with
      | none => none
      | some content =>
        match content.parts with
        | none => none
        | some parts =>
          (parts.find? (fun part => part.inlineData.isSome)).bind
            (fun part => part.inlineData)

/-- `textResponse || 'No text response received.'`: JavaScript `||` falls back
both when `response.text` is `undefined` and when it is the empty string. -/
def displayedText (response : GenResponse) : String :=
  match response.text with
  | some t => if t = "" then "No text response received." else t
  | none => "No text response received."

/-- The message of the error thrown when no image part is present. -/
def textErrorMessage (response : GenResponse) : String :=
  "The AI model responded with text instead of an image: \"" ++
    displayedText response ++ "\""

/-- `processGeminiResponse`: extract the image as a data URL, or throw an
error built from the response's text. -/
def processGeminiResponse (response : GenResponse) : Except String String :=
  match firstInlineData response with
  | some d => .ok ("data:" ++ d.mimeType ++ ";base64," ++ d.data)
  | none => .error (textErrorMessage response)

/-! ### Retry wrapper `callGeminiWithRetry`

The remote call `ai.models.generateContent` is modelled as an oracle
`calls : ℕ → GeminiOutcome` giving, for each (1-indexed) attempt, either the
response or the message of the exception thrown. -/

/-- Outcome of a single remote `generateContent` call. -/
inductive GeminiOutcome where
  | ok (response : GenResponse)
  | fail (message : String)
deriving DecidableEq

/-- Does `pat` occur literally at the front of the character list? -/
def startsWithChars : List Char → List Char → Bool
  | [], _ => true
  | _ :: _, [] => false
  | p :: ps, c :: cs => c = p && startsWithChars ps cs

/-- Does `pat` occur literally anywhere in the character list? -/
def containsChars (pat : List Char) : List Char → Bool
  | [] => startsWithChars pat []
  | c :: cs => startsWithChars pat (c :: cs) || containsChars pat cs

/-- JavaScript `s.includes(pat)`: literal substring test. -/
def containsSub (pat s : String) : Bool :=
  containsChars pat.toList s.toList

/-- `errorMessage.includes('"code":500') || errorMessage.includes('INTERNAL')`:
the code's classification of a failure as a transient internal/server
error. -/
def isInternalError (errorMessage : String) : Bool :=
  containsSub "\"code\":500" errorMessage || containsSub "INTERNAL" errorMessage

/-- `const maxRetries = 3`. -/
def maxRetries : ℕ := 3

/-- `const initialDelay = 1000` (milliseconds). -/
def initialDelay : ℕ := 1000

/-- How `callGeminiWithRetry` can finish: returning a response, re-throwing
an attempt's error, or reaching the trailing
`throw new Error("Gemini API call failed after all retries.")`. -/
inductive RetryResult where
  | success (response : GenResponse)
  | thrown (message : String)
  | fallbackThrow
deriving DecidableEq

/-- Observable trace of one `callGeminiWithRetry` invocation: how it
finished, how many attempts were made, and the backoff delays awaited (in
order, in milliseconds). -/
structure RetryTrace where
  result : RetryResult
  attempts : ℕ
  delays : List ℕ
deriving DecidableEq

/-- The `for (let attempt = 1; attempt <= maxRetries; attempt++)` loop.
`fuel` counts the loop iterations still allowed (`maxRetries - attempt + 1`
on entry); exhausting it is exactly falling out of the loop into the trailing
throw.  A failed attempt retries only when `isInternalError` holds and
`attempt < maxRetries`, after a delay of `initialDelay * 2 ^ (attempt - 1)`;
otherwise its error is re-thrown. -/
def retryAux (calls : ℕ → GeminiOutcome) : ℕ → ℕ → RetryTrace
  | 0, _ => ⟨.fallbackThrow, 0, []⟩
  | fuel + 1, attempt =>
    match calls attempt with
    | .ok r => ⟨.success r, 1, []⟩
    | .fail msg =>
      if isInternalError msg = true ∧ attempt < maxRetries then
        let rest := retryAux calls fuel (attempt + 1)
        ⟨rest.result, rest.attempts + 1,
          initialDelay * 2 ^ (attempt - 1) :: rest.delays⟩
      else ⟨.thrown msg, 1, []⟩

/-- `callGeminiWithRetry`: run the attempt loop from attempt 1. -/
def callGeminiWithRetry (calls : ℕ → GeminiOutcome) : RetryTrace :=
  retryAux calls maxRetries 1

/-! ### Input validation and dispatch: `generatePimpImage` -/

/-- JavaScript regex `\w`: `[A-Za-z0-9_]`. -/
def isWordChar (c : Char) : Bool :=
  c.isAlphanum || c = '_'

/-- JavaScript line terminators, which `.` does not match and before which
`$` (without the `m` flag) does not anchor. -/
def isLineTerminator (c : Char) : Bool :=
  c = '\n' || c = '\r' || c = '\u2028' || c = '\u2029'

/-- Strip a literal pattern from the front of a character list, or fail. -/
def dropLeading : List Char → List Char → Option (List Char)
  | [], s => some s
  | _, [] => none
  | p :: ps, c :: cs => if c = p then dropLeading ps cs else none

/-- The test `imageDataUrl.match(/^data:(image\/\w+);base64,(.*)$/)`,
returning the two capture groups (MIME type and base64 payload) on success.
`\w+` is a maximal run of word characters (no backtracking is possible since
`;` is not a word character), and `(.*)$` matches exactly when the remainder
contains no line terminator. -/
def parseDataUrl (s : String) : Option (String × String) :=
  match dropLeading "data:image/".toList s.toList with
  | none => none
  | some afterScheme =>
    let subtype := afterScheme.takeWhile isWordChar
    if subtype.isEmpty then none
    else
      match dropLeading ";base64,".toList (afterScheme.dropWhile isWordChar) with
      | none => none
      | some payload =>
        if payload.all (fun c => !isLineTerminator c) then
          some (String.mk ("image/".toList ++ subtype), String.mk payload)
        else none

/-- The static archetype-name → prompt table `PROMPTS` of
`geminiService.ts`, in source order. -/
def PROMPTS : List (String × String) :=
  [("Kiez-König", "Reimagine the person in this photo as a powerful Hamburg pimp from the 1980s, the \"Kiez-König\". The image should be a photorealistic portrait. They are wearing a black leather jacket over an open-collared shirt, heavy gold chains, and have a confident, intimidating expression. The background is a dimly lit, smoky bar on the Reeperbahn. The aesthetic must feel like a gritty 1980s film photograph."),
   ("Luden-Larry", "Reimagine the person in this photo as a flashy Hamburg pimp from the 1980s, \"Luden-Larry\". They are wearing a garish, brightly colored silk shirt, a white blazer, and gold-rimmed aviator sunglasses. They are leaning against a classic 80s sports car. The background is filled with the bright neon signs of the Reeperbahn at night. The style should be vibrant and slightly over-saturated, like a high-flash 80s photo."),
   ("Gold-Zahn Günther", "Reimagine the person in this photo as a tough, street-level Hamburg pimp from the 1980s, \"Gold-Zahn Günther\". They have a mullet hairstyle and a prominent gold tooth. They are wearing a cheap-looking tracksuit and a scowl. The photo must have a raw, candid feel, as if taken on a gritty side street off the Reeperbahn. The lighting is harsh and the colors are slightly faded."),
   ("Disco Dieter", "Reimagine the person in this photo as a stylish Hamburg pimp from the 1980s, \"Disco Dieter\". They are inside a pulsating 80s disco, with a disco ball and colorful lights in the background. They are wearing a shiny shirt, tight pants, and have perfectly coiffed hair. They are holding a cocktail and have a suave look. The image must capture the dynamic, colorful atmosphere of an 80s nightclub."),
   ("Porsche-Paul", "Reimagine the person in this photo as a wealthy Hamburg pimp from the 1980s, \"Porsche-Paul\". They are standing proudly next to a white Porsche 911. They are wearing an expensive suit with the jacket open, revealing a flamboyant shirt. Their expression is one of smug success. The scene is set on a Hamburg street at dusk, with the car\x27s headlights on. The photo style should be sharp and glossy, like from a car magazine of the era.")]

/-- Message of the error thrown on a malformed source-image data URL. -/
def invalidDataUrlMessage : String :=
  "Invalid image data URL format. Expected \x27data:image/...;base64,...\x27"

/-- Message of the error thrown on an unknown archetype name. -/
def noPromptMessage (pimpName : String) : String :=
  "No prompt found for archetype: " ++ pimpName

/-- The outer catch of `generatePimpImage` rewraps any failure. -/
def unrecoverableMessage (details : String) : String :=
  "The AI model failed to generate an image. Details: " ++ details

/-- The own properties of `Object.prototype`, which a bracket read on a
plain object literal reaches through the prototype chain when the key is
not an own property of the object. -/
def OBJECT_PROTOTYPE_MEMBERS : List String :=
  ["constructor", "hasOwnProperty", "isPrototypeOf", "propertyIsEnumerable",
   "toLocaleString", "toString", "valueOf", "__defineGetter__",
   "__defineSetter__", "__lookupGetter__", "__lookupSetter__", "__proto__"]

/-- The runtime value of the property read `PROMPTS[pimpName]`: a prompt
string (an own entry of the table), a non-string value inherited from
`Object.prototype` (a function, or the `__proto__` object), or
`undefined`.  The `Record<string, string>` annotation notwithstanding, a
bracket read on an object literal is not confined to the table's own
entries. -/
inductive PromptValue where
  | str (s : String)
  | inheritedValue
  | undefinedVal
deriving DecidableEq

/-- `const prompt = PROMPTS[pimpName]`: the own entry when the table has
one; otherwise the lookup continues on the prototype chain, so an
`Object.prototype` member name (e.g. `"constructor"`, `"toString"`) yields
that inherited value; only otherwise `undefined`. -/
def promptRead (pimpName : String) : PromptValue :=
  match List.lookup pimpName PROMPTS with
  | some p => .str p
  | none =>
    if pimpName ∈ OBJECT_PROTOTYPE_MEMBERS then .inheritedValue
    else .undefinedVal

/-- JavaScript truthiness of the read value in `if (!prompt)`: `undefined`
and the empty string are falsy; every value inherited from
`Object.prototype` (functions, and the `__proto__` object) is truthy. -/
def promptTruthy : PromptValue → Bool
  | .str s => !(s == "")
  | .inheritedValue => true
  | .undefinedVal => false

/-- `generatePimpImage`: validate the data URL, read the archetype's prompt
with `PROMPTS[pimpName]` (a prototype-chain property read, guarded only by
the truthiness test `if (!prompt)`), then dispatch through
`callGeminiWithRetry` and process the response.  The result carries the
number of remote attempts actually made, so that "fails before any remote
call" is expressible as `0`. -/
def generatePimpImage (remoteCalls : ℕ → GeminiOutcome)
    (imageDataUrl pimpName : String) : Except String String × ℕ :=
  match parseDataUrl imageDataUrl with
  | none => (.error invalidDataUrlMessage, 0)
  | some _ =>
    if promptTruthy (promptRead pimpName) = false then
      (.error (noPromptMessage pimpName), 0)
    else
      let t := callGeminiWithRetry remoteCalls
      match t.result with
      | .success response =>
        match processGeminiResponse response with
        | .ok url => (.ok url, t.attempts)
        | .error msg => (.error (unrecoverableMessage msg), t.attempts)
      | .thrown msg => (.error (unrecoverableMessage msg), t.attempts)
      | .fallbackThrow =>
        (.error (unrecoverableMessage "Gemini API call failed after all retries."),
          t.attempts)

/-! ### Application state (`src/App.tsx`)

`type ImageStatus = 'pending' | 'done' | 'error'` and
`interface GeneratedImage { status; url?; error? }`.  The React state object
`generatedImages : Record<string, GeneratedImage>` is modelled as an
insertion-ordered association list, matching JavaScript object key order:
`{...prev, [pimp]: v}` updates an existing key in place. -/

/-- `type ImageStatus = 'pending' | 'done' | 'error'`. -/
inductive ImageStatus where
  | pending
  | done
  | error
deriving DecidableEq

/-- `interface GeneratedImage { status: ImageStatus; url?: string; error?: string }`. -/
structure GeneratedImage where
  status : ImageStatus
  url : Option String := none
  error : Option String := none
deriving DecidableEq

/-- The entry `{ status: 'pending' }`. -/
def pendingImage : GeneratedImage :=
  { status := .pending }

/-- The store entry written by `processPimp` (and by the regeneration
handler) when the awaited `generatePimpImage` call resolves: its `try`
branch writes `{ status: 'done', url }`, its `catch` branch writes
`{ status: 'error', error }` — an individual failure is recorded, never
re-thrown. -/
def resolvedImage : Except String String → GeneratedImage
  | .ok url => { status := .done, url := some url }
  | .error msg => { status := .error, error := some msg }

/-- `const PIMP_ARCHETYPES = [...]`, the fixed closed set of archetype
names, in source order. -/
def PIMP_ARCHETYPES : List String :=
  ["Kiez-König", "Luden-Larry", "Gold-Zahn Günther", "Disco Dieter",
   "Porsche-Paul"]

/-- JavaScript object read `generatedImages[name]`. -/
def getImage (name : String) : List (String × GeneratedImage) → Option GeneratedImage
  | [] => none
  | e :: rest => if e.1 = name then some e.2 else getImage name rest

/-- JavaScript object update `{...prev, [name]: img}` for a key already
present: the value changes, the key order does not. -/
def setImage (name : String) (img : GeneratedImage)
    (store : List (String × GeneratedImage)) : List (String × GeneratedImage) :=
  store.map (fun e => if e.1 = name then (e.1, img) else e)

/-! ### The generation run (`handleGenerateClick`)

The run builds `pimpQueue = [...PIMP_ARCHETYPES]` and starts
`concurrencyLimit = 2` async workers; each worker loops
`while (pimpQueue.length > 0) { const pimp = pimpQueue.shift(); if (pimp)
await processPimp(pimp); }`.  JavaScript's run-to-completion semantics makes
the `length` check plus `shift()` one atomic block (there is no `await`
between them), and a worker suspends exactly while its `processPimp` call is
awaited.  We model this as a small-step system: a worker is `idle` (at the
loop head), `busy pimp` (awaiting `processPimp(pimp)`), or `finished` (loop
exited on an empty queue).  A schedule chooses which worker moves; a worker
step either atomically dequeues (`pick`) or completes its awaited call
(`resolve`).  The outcome of each item's remote call is an oracle
`String → Except String String` (each name is processed at most once per
run, so outcomes may be keyed by name); the `try/catch` of `processPimp` is
the `resolvedImage` write — no exception escapes a worker. -/

/-- `'pending' | 'done' | 'error'` is the store's only lifecycle record;
worker-side progress is the position in the loop. -/
inductive WorkerState where
  | idle
  | busy (pimp : String)
  | finished
deriving DecidableEq

/-- The mutable state shared by the two workers, plus a history field
`dispatched` recording every name ever removed from the queue (in dequeue
order), used to state "no name is dequeued twice". -/
structure RunState where
  pimpQueue : List String
  workers : WorkerState × WorkerState
  store : List (String × GeneratedImage)
  dispatched : List String
deriving DecidableEq

/-- Read one of the two workers (`false` = first, `true` = second). -/
def getWorker (w : WorkerState × WorkerState) : Bool → WorkerState
  | false => w.1
  | true => w.2

/-- Replace one of the two workers. -/
def setWorker (w : WorkerState × WorkerState) (st : WorkerState) :
    Bool → WorkerState × WorkerState
  | false => (st, w.2)
  | true => (w.1, st)

/-- The names a single worker is currently processing (none or one). -/
def busyList : WorkerState → List String
  | .busy p => [p]
  | _ => []

/-- The names currently being processed across both workers. -/
def busyNames (w : WorkerState × WorkerState) : List String :=
  busyList w.1 ++ busyList w.2

/-- One scheduling decision: let worker `i` run its next atomic block. -/
inductive SchedStep where
  | pick (i : Bool)
  | resolve (i : Bool)
deriving DecidableEq

/-- The atomic steps of `handleGenerateClick`'s workers.  `pick i`: worker
`i`, at its loop head, checks the queue — dequeueing the head and starting
`processPimp` on it, or exiting the loop if the queue is empty.  `resolve i`:
worker `i`'s awaited `processPimp(pimp)` resolves; its `try/catch` writes
`done`/`error` to the store and the worker returns to the loop head.  A step
for a worker that is not in the matching position is a stutter. -/
def stepRun (oracle : String → Except String String) (s : RunState) :
    SchedStep → RunState
  | .pick i =>
    match getWorker s.workers i with
    | .idle =>
      match s.pimpQueue with
      | [] => { s with workers := setWorker s.workers .finished i }
      | pimp :: rest =>
        { s with
          pimpQueue := rest,
          workers := setWorker s.workers (.busy pimp) i,
          dispatched := s.dispatched ++ [pimp] }
    | _ => s
  | .resolve i =>
    match getWorker s.workers i with
    | .busy pimp =>
      { s with
        workers := setWorker s.workers .idle i,
        store := setImage pimp (resolvedImage (oracle pimp)) s.store }
    | _ => s

/-- The state right after `setGeneratedImages(initialImages)`: every
archetype `pending`, the queue freshly copied from `PIMP_ARCHETYPES`, both
workers about to enter their loops. -/
def initRun : RunState :=
  { pimpQueue := PIMP_ARCHETYPES,
    workers := (.idle, .idle),
    store := PIMP_ARCHETYPES.map (fun pimp => (pimp, pendingImage)),
    dispatched := [] }

/-- Run a schedule from the initial state. -/
def execRun (oracle : String → Except String String)
    (sched : List SchedStep) : RunState :=
  sched.foldl (stepRun oracle) initRun

/-- `await Promise.all(workers)` has resolved: both workers exited their
loops. -/
def runComplete (s : RunState) : Prop :=
  s.workers.1 = .finished ∧ s.workers.2 = .finished

instance (s : RunState) : Decidable (runComplete s) :=
  inferInstanceAs (Decidable (_ ∧ _))

/-- `handleRegeneratePimp`: if the item's current status is `'pending'` the
request returns immediately (store unchanged); otherwise the item is reset
to `'pending'`, one `generatePimpImage` call is made, and its `try/catch`
records `done`/`error` — `outcome` is that call's result, and the returned
store is the state after the handler's last write.  (The handler also
returns early when no image has been uploaded; we model invocations with an
upload present, which is the only state in which items exist.) -/
def handleRegeneratePimp (store : List (String × GeneratedImage))
    (pimp : String) (outcome : Except String String) :
    List (String × GeneratedImage) :=
  if (getImage pimp store).map GeneratedImage.status = some ImageStatus.pending then
    store
  else
    setImage pimp (resolvedImage outcome) store

/-! ### Lookbook layout (`createLookbookPage` in the album utilities)

The canvas drawing is embedded by its geometry: each `imageData` entry
produces one "photo card" panel, whose centre is computed from the fixed
2-column × 3-row grid, and which is rotated about its centre by
`(Math.random() - 0.5) * 0.15` radians.  The `Math.random()` draws are an
explicit stream `rand : ℕ → ℝ` (one draw per panel, in panel order; the
background-texture and tape draws do not affect panel geometry).  Distances
are in canvas units, exact rationals. -/

/-- `canvasWidth = 2480`. -/
def canvasWidth : ℚ := 2480

/-- `canvasHeight = 3508`. -/
def canvasHeight : ℚ := 3508

/-- `grid = { cols: 2, rows: 3, padding: 100 }`. -/
def gridCols : ℕ := 2

/-- `grid.rows`. -/
def gridRows : ℕ := 3

/-- `grid.padding`. -/
def gridPadding : ℚ := 100

/-- `contentTopMargin = 550`, the space reserved for the title. -/
def contentTopMargin : ℚ := 550

/-- `contentHeight = canvasHeight - contentTopMargin`. -/
def contentHeight : ℚ := canvasHeight - contentTopMargin

/-- `cellWidth = (canvasWidth - padding * (cols + 1)) / cols`. -/
def cellWidth : ℚ := (canvasWidth - gridPadding * ((gridCols : ℚ) + 1)) / (gridCols : ℚ)

/-- `cellHeight = (contentHeight - padding * (rows + 1)) / rows`. -/
def cellHeight : ℚ := (contentHeight - gridPadding * ((gridRows : ℚ) + 1)) / (gridRows : ℚ)

/-- `photoWidth = cellWidth * 0.9`. -/
def photoWidth : ℚ := cellWidth * 0.9

/-- `photoHeight = photoWidth * 1.25`. -/
def photoHeight : ℚ := photoWidth * 1.25

/-- `col = index % grid.cols; x = padding * (col + 1) + cellWidth * col +
(cellWidth - photoWidth) / 2`. -/
def panelX (index : ℕ) : ℚ :=
  gridPadding * (((index % gridCols : ℕ) : ℚ) + 1) +
    cellWidth * ((index % gridCols : ℕ) : ℚ) + (cellWidth - photoWidth) / 2

/-- `row = Math.floor(index / grid.cols); y = contentTopMargin +
padding * (row + 1) + cellHeight * row`. -/
def panelY (index : ℕ) : ℚ :=
  contentTopMargin + gridPadding * (((index / gridCols : ℕ) : ℚ) + 1) +
    cellHeight * ((index / gridCols : ℕ) : ℚ)

/-- One placed photo card: its caption (`ctx.fillText(figure, ...)`), the
centre the context is translated to, and the rotation applied before the
card rectangle is drawn. -/
structure Panel where
  figure : String
  cx : ℚ
  cy : ℚ
  rotation : ℝ

/-- The panel drawn for entry `index` of `imageData`. -/
def panelOf (rand : ℕ → ℝ) (index : ℕ) (figure : String) : Panel :=
  { figure := figure,
    cx := panelX index + photoWidth / 2,
    cy := panelY index + photoHeight / 2,
    rotation := (rand index - 0.5) * 0.15 }

/-- The output of `createLookbookPage`, abstracted to what is drawn: the
canvas dimensions and the placed panels. -/
structure LookbookPage where
  width : ℚ
  height : ℚ
  panels : List Panel

/-- `createLookbookPage(imageData)`: one panel per entry of `imageData`, in
iteration order (`Object.keys` order = insertion order). -/
def createLookbookPage (imageData : List (String × String)) (rand : ℕ → ℝ) :
    LookbookPage :=
  { width := canvasWidth, height := canvasHeight,
    panels := imageData.enum.map (fun e => panelOf rand e.1 e.2.1) }

/-- Membership of a canvas point in a panel's card rectangle (the
`photoWidth × photoHeight` rect drawn centred at the translated origin after
rotation): rotate the point back around the centre and compare with the
half-extents. -/
def inPanel (p : Panel) (q : ℝ × ℝ) : Prop :=
  |(q.1 - (p.cx : ℝ)) * Real.cos p.rotation +
      (q.2 - (p.cy : ℝ)) * Real.sin p.rotation| ≤ (photoWidth : ℝ) / 2 ∧
  |(-(q.1 - (p.cx : ℝ))) * Real.sin p.rotation +
      (q.2 - (p.cy : ℝ)) * Real.cos p.rotation| ≤ (photoHeight : ℝ) / 2

/-- Two panels visually overlap when some canvas point lies in both card
rectangles. -/
def panelsOverlap (a b : Panel) : Prop :=
  ∃ q : ℝ × ℝ, inPanel a q ∧ inPanel b q

/-- Placeholder panel for out-of-range list reads in statements. -/
def defaultPanel : Panel :=
  { figure := "", cx := 0, cy := 0, rotation := 0 }

/-! ### Download guard (`handleDownloadLookbook`) -/

/-- JavaScript truthiness of the optional `url` field (`undefined` and the
empty string are falsy). -/
def truthyUrl : Option String → Bool
  | none => false
  | some u => !(u == "")

/-- The `filter`/`reduce` of `handleDownloadLookbook`: the
`done`-with-truthy-url entries, in store (= key insertion) order. -/
def doneImageData (store : List (String × GeneratedImage)) :
    List (String × String) :=
  store.filterMap (fun e =>
    if e.2.status = ImageStatus.done ∧ truthyUrl e.2.url = true then
      e.2.url.map (fun u => (e.1, u))
    else none)

/-- `handleDownloadLookbook`: collect the `done`-with-url entries in store
order; if fewer than `PIMP_ARCHETYPES.length` remain, alert and return
without composing (`none`); otherwise compose the lookbook page. -/
def handleDownloadLookbook (store : List (String × GeneratedImage))
    (rand : ℕ → ℝ) : Option LookbookPage :=
  if (doneImageData store).length < PIMP_ARCHETYPES.length then none
  else some (createLookbookPage (doneImageData store) rand)

/-! ### Concrete data used by witnesses and counterexamples -/

/-- Recognizer for the trailing-throw outcome of the retry loop. -/
def isFallbackThrow : RetryResult → Bool
  | .fallbackThrow => true
  | _ => false

/-- Decidable check that a response carries no inline image data in any
part of any candidate. -/
def responseLacksImage (r : GenResponse) : Bool :=
  match r.candidates with
  | none => true
  | some cands =>
    cands.all (fun c =>
      match c.content with
      | none => true
      | some ct =>
        match ct.parts with
        | none => true
        | some ps => ps.all (fun p => p.inlineData.isNone))

/-- A response with no candidates and no text. -/
def emptyResponse : GenResponse :=
  { candidates := none, text := none }

/-- Remote-call oracle whose every attempt succeeds. -/
def allOkCalls : ℕ → GeminiOutcome :=
  fun _ => .ok emptyResponse

/-- A response whose single candidate has one part without inline data,
accompanied by text. -/
def noImageResponse : GenResponse :=
  { candidates := some [{ content := some { parts := some [{ inlineData := none }] } }],
    text := some "blocked" }

/-- Per-item outcome oracle whose every item succeeds with url `"u"`. -/
def allOkOracle : String → Except String String :=
  fun _ => .ok "u"

/-- A schedule in which the first worker processes all five items and then
both workers observe the empty queue and finish. -/
def singleWorkerSched : List SchedStep :=
  [.pick false, .resolve false, .pick false, .resolve false, .pick false,
   .resolve false, .pick false, .resolve false, .pick false, .resolve false,
   .pick false, .pick true]

/-- A store in which four archetypes are `done` and one is `error`. -/
def storeOneError : List (String × GeneratedImage) :=
  [("Kiez-König", { status := .done, url := some "u" }),
   ("Luden-Larry", { status := .done, url := some "u" }),
   ("Gold-Zahn Günther", { status := .error, error := some "boom" }),
   ("Disco Dieter", { status := .done, url := some "u" }),
   ("Porsche-Paul", { status := .done, url := some "u" })]

/-- Three named images, as would result from three `done` items. -/
def cxImageData : List (String × String) :=
  [("Kiez-König", "u0"), ("Luden-Larry", "u1"), ("Gold-Zahn Günther", "u2")]

/-- Five named images, one per archetype. -/
def okImageData : List (String × String) :=
  [("Kiez-König", "u0"), ("Luden-Larry", "u1"), ("Gold-Zahn Günther", "u2"),
   ("Disco Dieter", "u3"), ("Porsche-Paul", "u4")]

/-- `Math.random()` stream returning `0.5` on every draw, which makes every
panel rotation exactly `0`. -/
def cxRand : ℕ → ℝ :=
  fun _ => 0.5

/-! ### Run invariant

The invariant tying together queue, workers, store and dispatch history in
every reachable state of a generation run. -/

/-- Invariant of the generation run.  Every name is accounted for exactly
once: still queued (and `pending` in the store), being processed by exactly
one worker (and `pending` in the store), or resolved (with the oracle's
outcome recorded in the store). -/
structure RunInv (oracle : String → Except String String) (s : RunState) : Prop where
  keys : s.store.map Prod.fst = PIMP_ARCHETYPES
  perm : (s.pimpQueue ++ s.dispatched).Perm PIMP_ARCHETYPES
  busy_sub : ∀ n ∈ busyNames s.workers, n ∈ s.dispatched
  busy_nodup : (busyNames s.workers).Nodup
  store_q : ∀ n ∈ s.pimpQueue, getImage n s.store = some pendingImage
  store_busy : ∀ n ∈ busyNames s.workers, getImage n s.store = some pendingImage
  store_done : ∀ n ∈ s.dispatched, n ∉ busyNames s.workers →
    getImage n s.store = some (resolvedImage (oracle n))
  fin_empty : (s.workers.1 = .finished ∨ s.workers.2 = .finished) → s.pimpQueue = []

lemma pimpArchetypes_nodup : PIMP_ARCHETYPES.Nodup := by decide

lemma getImage_setImage_self (name : String) (img : GeneratedImage)
    (store : List (String × GeneratedImage)) (h : name ∈ store.map Prod.fst) :
    getImage name (setImage name img store) = some img := by
  induction store with
  | nil => simp at h
  | cons e rest ih =>
    by_cases he : e.1 = name
    · simp [setImage, getImage, he]
    · have h' : name ∈ rest.map Prod.fst := by
        rcases (List.mem_map).1 h with ⟨x, hx, hfx⟩
        rcases List.mem_cons.1 hx with hxe | hxr
        · exact absurd (hxe ▸ hfx) he
        · exact List.mem_map.2 ⟨x, hxr, hfx⟩
      simpa [setImage, getImage, he] using ih h'

lemma getImage_setImage_other (name m : String) (img : GeneratedImage)
    (store : List (String × GeneratedImage)) (h : m ≠ name) :
    getImage m (setImage name img store) = getImage m store := by
  induction store with
  | nil => rfl
  | cons e rest ih =>
    by_cases he : e.1 = name
    · have hnm : ¬ name = m := fun hc => h hc.symm
      simp [setImage, getImage, he, hnm] at ih ⊢
      exact ih
    · by_cases hem : e.1 = m
      · simp [setImage, getImage, he, hem, h]
      · simp [setImage, getImage, he, hem] at ih ⊢
        exact ih

lemma storeKeys_setImage (name : String) (img : GeneratedImage)
    (store : List (String × GeneratedImage)) :
    (setImage name img store).map Prod.fst = store.map Prod.fst := by
  induction store with
  | nil => rfl
  | cons e rest ih =>
    by_cases he : e.1 = name <;> simp [setImage, he] at ih ⊢ <;> exact ih

lemma busyList_length_le (ws : WorkerState) : (busyList ws).length ≤ 1 := by
  cases ws <;> simp [busyList]

lemma mem_busyNames_of_getWorker (w : WorkerState × WorkerState) (p : String)
    (i : Bool) (h : getWorker w i = .busy p) : p ∈ busyNames w := by
  cases i <;> simp [getWorker] at h <;> simp [busyNames, h, busyList]

lemma busyNames_setWorker_busy (w : WorkerState × WorkerState) (p : String)
    (i : Bool) (h : getWorker w i = .idle) :
    (busyNames (setWorker w (.busy p) i)).Perm (p :: busyNames w) := by
  cases i
  · simp only [getWorker] at h
    simp [busyNames, setWorker, busyList, h]
  · simp only [getWorker] at h
    simp only [busyNames, setWorker, busyList, h, List.append_nil]
    exact List.perm_append_singleton p _

lemma busyNames_setWorker_idle (w : WorkerState × WorkerState) (p : String)
    (i : Bool) (h : getWorker w i = .busy p) :
    (busyNames w).Perm (p :: busyNames (setWorker w .idle i)) := by
  cases i
  · simp only [getWorker] at h
    simp [busyNames, setWorker, busyList, h]
  · simp only [getWorker] at h
    simp only [busyNames, setWorker, busyList, h, List.append_nil]
    exact List.perm_append_singleton p _

lemma busyNames_setWorker_finished (w : WorkerState × WorkerState)
    (i : Bool) (h : getWorker w i = .idle) :
    busyNames (setWorker w .finished i) = busyNames w := by
  cases i <;> simp only [getWorker] at h <;>
    simp [busyNames, setWorker, busyList, h]

lemma finished_of_setWorker (w : WorkerState × WorkerState) (st : WorkerState)
    (i : Bool) (hst : st ≠ .finished)
    (h : (setWorker w st i).1 = .finished ∨ (setWorker w st i).2 = .finished) :
    w.1 = .finished ∨ w.2 = .finished := by
  cases i <;> simp [setWorker] at h <;> tauto

lemma runInv_init (oracle : String → Except String String) :
    RunInv oracle initRun := by
  refine ⟨?_, ?_, ?_, ?_, ?_, ?_, ?_, ?_⟩
  · decide
  · simp [initRun]
  · intro n hn; simp [initRun, busyNames, busyList] at hn
  · decide
  · decide
  · intro n hn; simp [initRun, busyNames, busyList] at hn
  · intro n hn; simp [initRun] at hn
  · intro hfin; simp [initRun] at hfin

lemma runInv_step (oracle : String → Except String String) (s : RunState)
    (t : SchedStep) (h : RunInv oracle s) : RunInv oracle (stepRun oracle s t) := by
  have archNodup := pimpArchetypes_nodup
  have nodupQD : (s.pimpQueue ++ s.dispatched).Nodup :=
    h.perm.nodup_iff.mpr archNodup
  have disjQD : ∀ n, n ∈ s.pimpQueue → n ∈ s.dispatched → False := by
    intro n h1 h2
    exact (List.nodup_append.1 nodupQD).2.2 h1 h2
  cases t with
  | pick i =>
    cases hw : getWorker s.workers i with
    | idle =>
      cases hq : s.pimpQueue with
      | nil =>
        have hstep : stepRun oracle s (.pick i) =
            { s with workers := setWorker s.workers .finished i } := by
          simp [stepRun, hw, hq]
        have hbn := busyNames_setWorker_finished s.workers i hw
        rw [hstep]
        refine ⟨h.keys, h.perm, ?_, ?_, h.store_q, ?_, ?_, ?_⟩
        · intro n hn; exact h.busy_sub n (hbn ▸ hn)
        · exact hbn ▸ h.busy_nodup
        · intro n hn; exact h.store_busy n (hbn ▸ hn)
        · intro n hn hnb; exact h.store_done n hn (fun hc => hnb (hbn ▸ hc))
        · intro _; exact hq
      | cons p rest =>
        have hpq : p ∈ s.pimpQueue := hq ▸ List.mem_cons_self p rest
        have hpd : p ∉ s.dispatched := fun hc => disjQD p hpq hc
        have hpb : p ∉ busyNames s.workers := fun hc => hpd (h.busy_sub p hc)
        have hbn := busyNames_setWorker_busy s.workers p i hw
        have hstep : stepRun oracle s (.pick i) =
            { s with
              pimpQueue := rest,
              workers := setWorker s.workers (.busy p) i,
              dispatched := s.dispatched ++ [p] } := by
          simp [stepRun, hw, hq]
        rw [hstep]
        refine ⟨h.keys, ?_, ?_, ?_, ?_, ?_, ?_, ?_⟩
        · show (rest ++ (s.dispatched ++ [p])).Perm PIMP_ARCHETYPES
          have e1 : rest ++ (s.dispatched ++ [p]) =
              rest ++ s.dispatched ++ [p] :=
            (List.append_assoc rest s.dispatched [p]).symm
          rw [e1]
          refine (List.perm_append_singleton p (rest ++ s.dispatched)).trans ?_
          have e4 : p :: (rest ++ s.dispatched) =
              (p :: rest) ++ s.dispatched := rfl
          rw [e4, ← hq]
          exact h.perm
        · intro n hn
          have hn' : n ∈ p :: busyNames s.workers := hbn.mem_iff.mp hn
          rcases List.mem_cons.1 hn' with hnp | hnb
          · rw [hnp]
            exact List.mem_append_right _ (List.mem_singleton_self p)
          · exact List.mem_append_left _ (h.busy_sub n hnb)
        · refine (hbn.nodup_iff).mpr ?_
          exact List.nodup_cons.2 ⟨hpb, h.busy_nodup⟩
        · intro n hn
          exact h.store_q n (hq ▸ List.mem_cons_of_mem p hn)
        · intro n hn
          have hn' : n ∈ p :: busyNames s.workers := hbn.mem_iff.mp hn
          rcases List.mem_cons.1 hn' with hnp | hnb
          · exact hnp ▸ h.store_q p hpq
          · exact h.store_busy n hnb
        · intro n hn hnb
          rcases List.mem_append.1 hn with hnd | hnp
          · refine h.store_done n hnd (fun hc => hnb ?_)
            exact hbn.mem_iff.mpr (List.mem_cons_of_mem p hc)
          · exfalso
            have hnp' : n = p := List.mem_singleton.1 hnp
            exact hnb (hnp' ▸ hbn.mem_iff.mpr (List.mem_cons_self p _))
        · intro hfin
          have hold := finished_of_setWorker s.workers (.busy p) i
            (by simp) hfin
          have hqnil := h.fin_empty hold
          rw [hq] at hqnil
          exact absurd hqnil (by simp)
    | busy p =>
      have hid : stepRun oracle s (.pick i) = s := by simp [stepRun, hw]
      rw [hid]; exact h
    | finished =>
      have hid : stepRun oracle s (.pick i) = s := by simp [stepRun, hw]
      rw [hid]; exact h
  | resolve i =>
    cases hw : getWorker s.workers i with
    | idle =>
      have hid : stepRun oracle s (.resolve i) = s := by simp [stepRun, hw]
      rw [hid]; exact h
    | finished =>
      have hid : stepRun oracle s (.resolve i) = s := by simp [stepRun, hw]
      rw [hid]; exact h
    | busy p =>
      have hpb : p ∈ busyNames s.workers := mem_busyNames_of_getWorker _ _ _ hw
      have hpd : p ∈ s.dispatched := h.busy_sub p hpb
      have hbn := busyNames_setWorker_idle s.workers p i hw
      have hnodup' : (p :: busyNames (setWorker s.workers .idle i)).Nodup :=
        (hbn.nodup_iff).mp h.busy_nodup
      have hpnotb' : p ∉ busyNames (setWorker s.workers .idle i) :=
        (List.nodup_cons.1 hnodup').1
      have hpkeys : p ∈ s.store.map Prod.fst := by
        rw [h.keys]
        exact h.perm.mem_iff.mp (List.mem_append_right _ hpd)
      have hstep : stepRun oracle s (.resolve i) =
          { s with
            workers := setWorker s.workers .idle i,
            store := setImage p (resolvedImage (oracle p)) s.store } := by
        simp [stepRun, hw]
      rw [hstep]
      refine ⟨?_, h.perm, ?_, ?_, ?_, ?_, ?_, ?_⟩
      · rw [storeKeys_setImage]; exact h.keys
      · intro n hn
        exact h.busy_sub n (hbn.mem_iff.mpr (List.mem_cons_of_mem p hn))
      · exact (List.nodup_cons.1 hnodup').2
      · intro n hn
        have hnp : n ≠ p := fun hc => disjQD n hn (hc ▸ hpd)
        rw [getImage_setImage_other _ _ _ _ hnp]
        exact h.store_q n hn
      · intro n hn
        have hnp : n ≠ p := fun hc => hpnotb' (hc ▸ hn)
        rw [getImage_setImage_other _ _ _ _ hnp]
        exact h.store_busy n (hbn.mem_iff.mpr (List.mem_cons_of_mem p hn))
      · intro n hn hnb
        by_cases hnp : n = p
        · subst hnp
          exact getImage_setImage_self n _ _ hpkeys
        · rw [getImage_setImage_other _ _ _ _ hnp]
          refine h.store_done n hn (fun hc => ?_)
          rcases List.mem_cons.1 (hbn.mem_iff.mp hc) with hc' | hc'
          · exact hnp hc'
          · exact hnb hc'
      · intro hfin
        exact h.fin_empty (finished_of_setWorker s.workers .idle i (by simp) hfin)

lemma runInv_exec (oracle : String → Except String String)
    (sched : List SchedStep) : RunInv oracle (execRun oracle sched) := by
  suffices hgen : ∀ s, RunInv oracle s →
      RunInv oracle (sched.foldl (stepRun oracle) s) from
    hgen initRun (runInv_init oracle)
  induction sched with
  | nil => exact fun s hs => hs
  | cons t ts ih => exact fun s hs => ih _ (runInv_step oracle s t hs)

lemma busyNames_of_runComplete (s : RunState) (h : runComplete s) :
    busyNames s.workers = [] := by
  obtain ⟨h1, h2⟩ := h
  simp [busyNames, h1, h2, busyList]

/-! ### Claim theorems: the retry wrapper -/

/-- C2: when all three attempts fail with a failure classified as a
transient internal/server error, `callGeminiWithRetry` makes exactly 3
attempts, waits 1000 ms then 2000 ms (delay = initialDelay × 2^(attempt−1),
no jitter), and re-throws the last observed failure. -/
theorem retry_transient_three_attempts (calls : ℕ → GeminiOutcome)
    (m1 m2 m3 : String)
    (h1 : calls 1 = .fail m1) (hi1 : isInternalError m1 = true)
    (h2 : calls 2 = .fail m2) (hi2 : isInternalError m2 = true)
    (h3 : calls 3 = .fail m3) (hi3 : isInternalError m3 = true) :
    callGeminiWithRetry calls =
      { result := .thrown m3, attempts := 3, delays := [1000, 2000] } := by
  simp [callGeminiWithRetry, maxRetries, initialDelay, retryAux,
    h1, h2, h3, hi1, hi2, hi3]

/-- Witness for C2: the oracle failing every attempt with an
`INTERNAL`-classified message realizes the 3-attempt trace. -/
theorem retry_transient_three_attempts_witness :
    callGeminiWithRetry (fun _ => .fail "INTERNAL error") =
      { result := .thrown "INTERNAL error", attempts := 3,
        delays := [1000, 2000] } :=
  retry_transient_three_attempts (fun _ => .fail "INTERNAL error")
    "INTERNAL error" "INTERNAL error" "INTERNAL error"
    rfl (by decide) rfl (by decide) rfl (by decide)

/-- C3: when the first attempt fails with a failure not classified as a
transient internal/server error, exactly 1 attempt occurs, no backoff delay
is awaited, and the failure propagates immediately. -/
theorem retry_permanent_single_attempt (calls : ℕ → GeminiOutcome)
    (m : String) (h1 : calls 1 = .fail m) (hi : isInternalError m = false) :
    callGeminiWithRetry calls =
      { result := .thrown m, attempts := 1, delays := [] } := by
  simp [callGeminiWithRetry, maxRetries, retryAux, h1, hi]

/-- Witness for C3: a non-transient failure message propagates after one
attempt. -/
theorem retry_permanent_single_attempt_witness :
    callGeminiWithRetry (fun _ => .fail "malformed input") =
      { result := .thrown "malformed input", attempts := 1, delays := [] } :=
  retry_permanent_single_attempt (fun _ => .fail "malformed input")
    "malformed input" rfl (by decide)

/-- C10: every invocation of `callGeminiWithRetry` terminates within 3
attempts, and the trailing
`throw new Error("Gemini API call failed after all retries.")` after the
loop is unreachable: the loop itself always returns or throws. -/
theorem retry_fallback_unreachable (calls : ℕ → GeminiOutcome) :
    (callGeminiWithRetry calls).attempts ≤ 3 ∧
    isFallbackThrow (callGeminiWithRetry calls).result = false := by
  cases hc1 : calls 1 with
  | ok r => simp [callGeminiWithRetry, maxRetries, retryAux, hc1, isFallbackThrow]
  | fail m1 =>
    by_cases hi1 : isInternalError m1 = true
    · cases hc2 : calls 2 with
      | ok r =>
        simp [callGeminiWithRetry, maxRetries, retryAux, hc1, hc2, hi1,
          isFallbackThrow]
      | fail m2 =>
        by_cases hi2 : isInternalError m2 = true
        · cases hc3 : calls 3 with
          | ok r =>
            simp [callGeminiWithRetry, maxRetries, retryAux, hc1, hc2, hc3,
              hi1, hi2, isFallbackThrow]
          | fail m3 =>
            simp [callGeminiWithRetry, maxRetries, retryAux, hc1, hc2, hc3,
              hi1, hi2, isFallbackThrow]
        · simp [callGeminiWithRetry, maxRetries, retryAux, hc1, hc2, hi1, hi2,
            isFallbackThrow]
    · simp [callGeminiWithRetry, maxRetries, retryAux, hc1, hi1, isFallbackThrow]

/-! ### Claim theorems: input validation and response processing -/

/-- The guard of `generatePimpImage` as it actually behaves: a data URL not
matching the regex throws the invalid-format error with 0 remote attempts,
and a well-formed URL with a *falsy* prompt read (the whole-prototype-chain
lookup yields `undefined`) throws the no-prompt error with 0 remote
attempts. -/
lemma generatePimpImage_guard (remoteCalls : ℕ → GeminiOutcome)
    (imageDataUrl pimpName : String) :
    (parseDataUrl imageDataUrl = none →
      generatePimpImage remoteCalls imageDataUrl pimpName =
        (.error invalidDataUrlMessage, 0)) ∧
    (∀ mt d, parseDataUrl imageDataUrl = some (mt, d) →
      promptTruthy (promptRead pimpName) = false →
      generatePimpImage remoteCalls imageDataUrl pimpName =
        (.error (noPromptMessage pimpName), 0)) := by
  constructor
  · intro hp
    simp [generatePimpImage, hp]
  · intro mt d hp hg
    simp [generatePimpImage, hp, hg]

/-- C8: evaluation at the failing input.  `"constructor"` has no entry in
the static `PROMPTS` table, yet `PROMPTS["constructor"]` reaches the
inherited, truthy `Object.prototype.constructor` through the prototype
chain, so `if (!prompt)` does not throw: with a well-formed data URL and a
remote oracle failing transiently, `generatePimpImage` dispatches the
remote call and makes all 3 retry attempts — instead of throwing
immediately before dispatch as the claim states. -/
theorem unknown_name_constructor_dispatches :
    List.lookup "constructor" PROMPTS = none ∧
    promptRead "constructor" = PromptValue.inheritedValue ∧
    (generatePimpImage (fun _ => .fail "INTERNAL")
      "data:image/png;base64,AAAA" "constructor").2 = 3 ∧
    (generatePimpImage (fun _ => .fail "INTERNAL")
      "data:image/png;base64,AAAA" "constructor").1 =
      .error (unrecoverableMessage "INTERNAL") := by
  refine ⟨rfl, rfl, rfl, rfl⟩

/-- C9: a response with no inline image data in any part is processed as a
failure: `processGeminiResponse` throws, and the error message incorporates
the response's accompanying text (with a fixed placeholder when the text is
absent or empty). -/
theorem missing_image_payload_throws (r : GenResponse)
    (h : responseLacksImage r = true) :
    processGeminiResponse r = .error (textErrorMessage r) ∧
    (∀ t, r.text = some t → t ≠ "" →
      textErrorMessage r =
        "The AI model responded with text instead of an image: \"" ++ t ++ "\"") := by
  constructor
  · have hfi : firstInlineData r = none := by
      rcases r with ⟨cands, text⟩
      cases cands with
      | none => rfl
      | some cl =>
        simp only [responseLacksImage, List.all_eq_true] at h
        cases cl with
        | nil => rfl
        | cons c rest =>
          have hc := h c (List.mem_cons_self c rest)
          cases hct : c.content with
          | none => simp [firstInlineData, hct]
          | some ct =>
            simp only [hct] at hc
            cases hps : ct.parts with
            | none => simp [firstInlineData, hct, hps]
            | some ps =>
              simp only [hps, List.all_eq_true] at hc
              have hfind : ps.find? (fun p => p.inlineData.isSome) = none := by
                rw [List.find?_eq_none]
                intro p hp
                have := hc p hp
                simp [Option.isNone_iff_eq_none.mp this]
              simp [firstInlineData, hct, hps, hfind]
    simp [processGeminiResponse, hfi]
  · intro t ht hne
    simp [textErrorMessage, displayedText, ht, hne]

/-- Witness for C9: a one-candidate response whose only part lacks inline
data throws with the response text `"blocked"` in the message. -/
theorem missing_image_payload_throws_witness :
    processGeminiResponse noImageResponse =
      .error (textErrorMessage noImageResponse) ∧
    textErrorMessage noImageResponse =
      "The AI model responded with text instead of an image: \"blocked\"" := by
  have h := missing_image_payload_throws noImageResponse (by decide)
  exact ⟨h.1, h.2 "blocked" rfl (by decide)⟩

/-! ### Claim theorems: the generation run -/

/-- C1: after any completed run (any interleaving of the two workers, any
per-item outcomes), every submitted archetype's store entry is exactly the
recorded outcome of its remote call — status `done` or `error`, never
`pending` (and the code has no in-flight status at all); in particular an
item's failure is recorded in that item's entry (message included) and is
observable in the final store, rather than aborting the run: `execRun` is a
total function of the schedule, so no item failure ever escapes it. -/
theorem run_completes_with_terminal_statuses
    (oracle : String → Except String String) (sched : List SchedStep)
    (h : runComplete (execRun oracle sched)) :
    ∀ n ∈ PIMP_ARCHETYPES,
      getImage n (execRun oracle sched).store = some (resolvedImage (oracle n)) ∧
      ((resolvedImage (oracle n)).status = ImageStatus.done ∨
        (resolvedImage (oracle n)).status = ImageStatus.error) ∧
      ∀ m, oracle n = .error m →
        getImage n (execRun oracle sched).store =
          some { status := ImageStatus.error, url := none, error := some m } := by
  intro n hn
  have inv := runInv_exec oracle sched
  have hb := busyNames_of_runComplete _ h
  have hqe : (execRun oracle sched).pimpQueue = [] := inv.fin_empty (Or.inl h.1)
  have hd : n ∈ (execRun oracle sched).dispatched := by
    have hmem := inv.perm.mem_iff.mpr hn
    rw [hqe] at hmem
    simpa using hmem
  have hmain := inv.store_done n hd (by rw [hb]; exact List.not_mem_nil n)
  refine ⟨hmain, ?_, ?_⟩
  · cases hoc : oracle n <;> simp [resolvedImage, hoc]
  · intro m hm
    rw [hmain, hm]
    rfl

/-- Witness for C1: a concrete completing schedule; the first archetype's
entry is its recorded outcome. -/
theorem run_completes_with_terminal_statuses_witness :
    runComplete (execRun allOkOracle singleWorkerSched) ∧
    getImage "Kiez-König" (execRun allOkOracle singleWorkerSched).store =
      some (resolvedImage (allOkOracle "Kiez-König")) := by
  refine ⟨by decide, ?_⟩
  exact (run_completes_with_terminal_statuses allOkOracle singleWorkerSched
    (by decide) "Kiez-König" (by decide)).1

/-- C7: in every state reachable by any schedule, at most `worker_count = 2`
items are being processed concurrently, the two workers never hold the same
item, no name is ever dequeued twice (the dequeue history of the shared
queue is duplicate-free), and a completed run has dispatched each submitted
name exactly once. -/
theorem worker_dispatch_unique (oracle : String → Except String String)
    (sched : List SchedStep) :
    (busyNames (execRun oracle sched).workers).length ≤ 2 ∧
    (busyNames (execRun oracle sched).workers).Nodup ∧
    (execRun oracle sched).dispatched.Nodup ∧
    (runComplete (execRun oracle sched) →
      (execRun oracle sched).dispatched.Perm PIMP_ARCHETYPES) := by
  have inv := runInv_exec oracle sched
  refine ⟨?_, inv.busy_nodup, ?_, ?_⟩
  · have hl1 := busyList_length_le (execRun oracle sched).workers.1
    have hl2 := busyList_length_le (execRun oracle sched).workers.2
    simp only [busyNames, List.length_append]
    omega
  · have nodupQD := inv.perm.nodup_iff.mpr pimpArchetypes_nodup
    exact (List.nodup_append.1 nodupQD).2.1
  · intro hc
    have hqe : (execRun oracle sched).pimpQueue = [] := inv.fin_empty (Or.inl hc.1)
    have hperm := inv.perm
    rw [hqe] at hperm
    simpa using hperm

/-- Witness for C7: instantiated at the concrete completing schedule. -/
theorem worker_dispatch_unique_witness :
    (busyNames (execRun allOkOracle singleWorkerSched).workers).length ≤ 2 ∧
    (busyNames (execRun allOkOracle singleWorkerSched).workers).Nodup ∧
    (execRun allOkOracle singleWorkerSched).dispatched.Nodup ∧
    (runComplete (execRun allOkOracle singleWorkerSched) →
      (execRun allOkOracle singleWorkerSched).dispatched.Perm PIMP_ARCHETYPES) :=
  worker_dispatch_unique allOkOracle singleWorkerSched

/-- Counterexample to C6 as stated: when a worker picks an item up, the
item does *not* transition from `Pending` to a distinct `InFlight` status.
In the code `ImageStatus` has only `pending`/`done`/`error`; after the
pickup step the worker is busy on "Kiez-König" yet the item's store entry
still has status `pending`, unchanged from before the pickup. -/
theorem pickup_keeps_pending_counterexample :
    getImage "Kiez-König" initRun.store = some pendingImage ∧
    getWorker (stepRun allOkOracle initRun (.pick false)).workers false =
      .busy "Kiez-König" ∧
    getImage "Kiez-König" (stepRun allOkOracle initRun (.pick false)).store =
      some pendingImage ∧
    pendingImage.status = ImageStatus.pending := by
  refine ⟨by decide, by decide, by decide, rfl⟩

/-- C6 (amended): the code has no `InFlight` status — an item a worker has
picked up keeps status `pending` in the store, being in flight is
represented by worker occupancy; the item transitions to `done`/`error`
exactly when the worker's awaited call resolves; and a regeneration request
on an item whose status is `pending` — which covers every in-flight item —
is ignored (the store is returned unchanged), so at most one in-flight
attempt per item exists at any time. -/
theorem inflight_guard_amended (oracle : String → Except String String)
    (sched : List SchedStep) (n : String) (outcome : Except String String)
    (hbusy : n ∈ busyNames (execRun oracle sched).workers) :
    getImage n (execRun oracle sched).store = some pendingImage ∧
    handleRegeneratePimp (execRun oracle sched).store n outcome =
      (execRun oracle sched).store ∧
    ∀ i, getWorker (execRun oracle sched).workers i = .busy n →
      getImage n (stepRun oracle (execRun oracle sched) (.resolve i)).store =
        some (resolvedImage (oracle n)) := by
  have inv := runInv_exec oracle sched
  have hpend := inv.store_busy n hbusy
  refine ⟨hpend, ?_, ?_⟩
  · simp [handleRegeneratePimp, hpend, pendingImage]
  · intro i hi
    have hkeymem : n ∈ (execRun oracle sched).store.map Prod.fst := by
      rw [inv.keys]
      exact inv.perm.mem_iff.mp (List.mem_append_right _ (inv.busy_sub n hbusy))
    have hstep : (stepRun oracle (execRun oracle sched) (.resolve i)).store =
        setImage n (resolvedImage (oracle n)) (execRun oracle sched).store := by
      simp [stepRun, hi]
    rw [hstep]
    exact getImage_setImage_self n _ _ hkeymem

/-- Witness for C6 (amended): after one pickup step "Kiez-König" is in
flight, its entry reads `pending`, and a regeneration request on it is
ignored. -/
theorem inflight_guard_amended_witness :
    "Kiez-König" ∈ busyNames (execRun allOkOracle [SchedStep.pick false]).workers ∧
    getImage "Kiez-König" (execRun allOkOracle [SchedStep.pick false]).store =
      some pendingImage ∧
    handleRegeneratePimp (execRun allOkOracle [SchedStep.pick false]).store
      "Kiez-König" (.ok "w") =
      (execRun allOkOracle [SchedStep.pick false]).store := by
  have h := inflight_guard_amended allOkOracle [SchedStep.pick false]
    "Kiez-König" (.ok "w") (by decide)
  exact ⟨by decide, h.1, h.2.1⟩

/-! ### Claim theorems: the download guard -/

lemma length_filterMap_lt {α β : Type} (f : α → Option β) (l : List α)
    (a : α) (ha : a ∈ l) (hfa : f a = none) :
    (l.filterMap f).length < l.length := by
  induction l with
  | nil => simp at ha
  | cons x xs ih =>
    rcases List.mem_cons.1 ha with hax | hmem
    · rw [← hax] at *
      rw [List.filterMap_cons, hfa]
      have hle := List.length_filterMap_le f xs
      simp only [List.length_cons]
      omega
    · cases hfx : f x with
      | none =>
        rw [List.filterMap_cons, hfx]
        have hlt := ih hmem
        simp only [List.length_cons]
        omega
      | some b =>
        rw [List.filterMap_cons, hfx]
        have hlt := ih hmem
        simp only [List.length_cons]
        omega

/-- C5: composition is refused unless every submitted item is `done`: when
the store's keys are exactly the submitted archetypes and some entry lacks a
successful result (not status `done` with a truthy url), the download
handler produces no composite output at all (`none`) — it refuses rather
than composing a partial page. -/
theorem download_refused_unless_all_done
    (store : List (String × GeneratedImage)) (rand : ℕ → ℝ)
    (hkeys : store.map Prod.fst = PIMP_ARCHETYPES)
    (e : String × GeneratedImage) (he : e ∈ store)
    (hbad : ¬ (e.2.status = ImageStatus.done ∧ truthyUrl e.2.url = true)) :
    handleDownloadLookbook store rand = none := by
  have hfe : (if e.2.status = ImageStatus.done ∧ truthyUrl e.2.url = true then
      e.2.url.map (fun u => (e.1, u)) else none) = none := by
    rw [if_neg hbad]
  have hlt : (doneImageData store).length < store.length :=
    length_filterMap_lt _ store e he hfe
  have hlen : store.length = PIMP_ARCHETYPES.length := by
    rw [← hkeys, List.length_map]
  unfold handleDownloadLookbook
  rw [if_pos (by omega)]

/-- Witness for C5: with one archetype in `error` and the other four
`done`, the lookbook download is refused. -/
theorem download_refused_unless_all_done_witness :
    handleDownloadLookbook storeOneError (fun _ => 0) = none :=
  download_refused_unless_all_done storeOneError (fun _ => 0) (by decide)
    ("Gold-Zahn Günther", { status := .error, error := some "boom" })
    (by decide) (by decide)

/-! ### Lookbook geometry lemmas -/

lemma photoWidth_eq : photoWidth = 981 := by
  norm_num [photoWidth, cellWidth, canvasWidth, gridPadding, gridCols]

lemma photoHeight_eq : photoHeight = 4905 / 4 := by
  norm_num [photoHeight, photoWidth_eq]

lemma panelCx (k : ℕ) :
    panelX k + photoWidth / 2 = 1190 * ((k % gridCols : ℕ) : ℚ) + 645 := by
  simp only [panelX, photoWidth, cellWidth, canvasWidth, gridPadding, gridCols]
  push_cast
  ring_nf

lemma panelCy (k : ℕ) :
    panelY k + photoHeight / 2 =
      (2858 / 3) * ((k / gridCols : ℕ) : ℚ) + 10105 / 8 := by
  simp only [panelY, photoHeight, photoWidth, cellWidth, cellHeight,
    contentHeight, canvasWidth, canvasHeight, contentTopMargin, gridPadding,
    gridCols, gridRows]
  push_cast
  ring_nf

lemma createLookbook_length (imageData : List (String × String))
    (rand : ℕ → ℝ) :
    (createLookbookPage imageData rand).panels.length = imageData.length := by
  simp [createLookbookPage]

lemma panels_getD (imageData : List (String × String)) (rand : ℕ → ℝ)
    (i : ℕ) (hi : i < imageData.length) :
    (createLookbookPage imageData rand).panels.getD i defaultPanel =
      panelOf rand i (imageData.getD i ("", "")).1 := by
  have hlen := createLookbook_length imageData rand
  have hi' : i < (createLookbookPage imageData rand).panels.length := by
    rw [hlen]; exact hi
  rw [List.getD_eq_getElem _ _ hi', List.getD_eq_getElem _ _ hi]
  simp [createLookbookPage, List.enum]

lemma rotation_bound (rand : ℕ → ℝ) (k : ℕ)
    (h0 : 0 ≤ rand k) (h1 : rand k < 1) :
    |(rand k - 0.5) * 0.15| ≤ 3 / 40 := by
  rw [abs_mul]
  have h2 : |rand k - 0.5| ≤ 0.5 := by
    rw [abs_le]
    constructor <;> [linarith; linarith]
  have h3 : |(0.15 : ℝ)| = 0.15 := by norm_num
  rw [h3]
  nlinarith

lemma abs_self_le (x : ℝ) (hx : 0 ≤ x) : |x| ≤ x :=
  le_of_eq (abs_of_nonneg hx)

lemma abs_mul_sin_le (v bnd : ℝ) (hv : |v| ≤ bnd) (θ : ℝ) :
    |v * Real.sin θ| ≤ bnd := by
  rw [abs_mul]
  have h1 := Real.abs_sin_le_one θ
  nlinarith [abs_nonneg v, abs_nonneg (Real.sin θ)]

lemma abs_mul_cos_le (v bnd : ℝ) (hv : |v| ≤ bnd) (θ : ℝ) :
    |v * Real.cos θ| ≤ bnd := by
  rw [abs_mul]
  have h1 := Real.abs_cos_le_one θ
  nlinarith [abs_nonneg v, abs_nonneg (Real.cos θ)]

lemma rotatedRect_absX (u v c s hw hh b : ℝ) (hcs : c * c + s * s = 1)
    (h1 : |u * c + v * s| ≤ hw) (h2 : |(-u) * s + v * c| ≤ hh)
    (hc : |c| ≤ 1) (hs : |s| ≤ b) : |u| ≤ hw + hh * b := by
  have hid : u = (u * c + v * s) * c - ((-u) * s + v * c) * s := by
    have expand : (u * c + v * s) * c - ((-u) * s + v * c) * s =
        u * (c * c + s * s) := by ring
    rw [expand, hcs, mul_one]
  have tri : |u| ≤ |(u * c + v * s) * c| + |((-u) * s + v * c) * s| := by
    nth_rewrite 1 [hid]
    rw [sub_eq_add_neg]
    refine (abs_add _ _).trans ?_
    rw [abs_neg]
  have hb1 : |(u * c + v * s) * c| ≤ hw * 1 := by
    rw [abs_mul]
    exact mul_le_mul h1 hc (abs_nonneg _) ((abs_nonneg _).trans h1)
  have hb2 : |((-u) * s + v * c) * s| ≤ hh * b := by
    rw [abs_mul]
    exact mul_le_mul h2 hs (abs_nonneg _) ((abs_nonneg _).trans h2)
  have hfin : |u| ≤ hw * 1 + hh * b := tri.trans (add_le_add hb1 hb2)
  linarith

lemma inPanel_absX (p : Panel) (q : ℝ × ℝ) (b : ℝ)
    (hrot : |p.rotation| ≤ b) (h : inPanel p q) :
    |q.1 - (p.cx : ℝ)| ≤ (photoWidth : ℝ) / 2 + (photoHeight : ℝ) / 2 * b := by
  obtain ⟨h1, h2⟩ := h
  refine rotatedRect_absX (q.1 - (p.cx : ℝ)) (q.2 - (p.cy : ℝ))
    (Real.cos p.rotation) (Real.sin p.rotation) _ _ b ?_ h1 h2
    (Real.abs_cos_le_one _) (Real.abs_sin_le_abs.trans hrot)
  nlinarith [Real.sin_sq_add_cos_sq p.rotation]

lemma same_row_no_overlap (pa pb : Panel) (b : ℝ)
    (hra : |pa.rotation| ≤ b) (hrb : |pb.rotation| ≤ b)
    (hgap : (photoWidth : ℝ) + (photoHeight : ℝ) * b <
      |(pb.cx : ℝ) - (pa.cx : ℝ)|) :
    ¬ panelsOverlap pa pb := by
  rintro ⟨q, hqa, hqb⟩
  have h1 := inPanel_absX pa q b hra hqa
  have h2 := inPanel_absX pb q b hrb hqb
  have e : (q.1 - (pa.cx : ℝ)) - (q.1 - (pb.cx : ℝ)) =
      (pb.cx : ℝ) - (pa.cx : ℝ) := by ring
  have tri : |(pb.cx : ℝ) - (pa.cx : ℝ)| ≤
      |q.1 - (pa.cx : ℝ)| + |q.1 - (pb.cx : ℝ)| := by
    rw [← e, sub_eq_add_neg]
    refine (abs_add _ _).trans ?_
    rw [abs_neg]
  linarith

lemma stacked_panels_overlap (pa pb : Panel)
    (hx : pa.cx = pb.cx) (hy : pb.cy - pa.cy = 2858 / 3) :
    panelsOverlap pa pb := by
  have hxR : (pa.cx : ℝ) = (pb.cx : ℝ) := by exact_mod_cast hx
  have hyR : (pb.cy : ℝ) - (pa.cy : ℝ) = 2858 / 3 := by
    have hcast := congrArg (fun r : ℚ => (r : ℝ)) hy
    push_cast at hcast
    linarith
  have hpw : (photoWidth : ℝ) = 981 := by
    rw [photoWidth_eq]; norm_num
  have hph : (photoHeight : ℝ) = 4905 / 4 := by
    rw [photoHeight_eq]; push_cast; ring
  have e2a : ((pa.cy : ℝ) + (pb.cy : ℝ)) / 2 - (pa.cy : ℝ) = 1429 / 3 := by
    linarith
  have e2b : ((pa.cy : ℝ) + (pb.cy : ℝ)) / 2 - (pb.cy : ℝ) = -(1429 / 3) := by
    linarith
  refine ⟨((pa.cx : ℝ), ((pa.cy : ℝ) + (pb.cy : ℝ)) / 2), ⟨?_, ?_⟩, ⟨?_, ?_⟩⟩
  · show |((pa.cx : ℝ) - (pa.cx : ℝ)) * Real.cos pa.rotation +
        (((pa.cy : ℝ) + (pb.cy : ℝ)) / 2 - (pa.cy : ℝ)) * Real.sin pa.rotation| ≤
      (photoWidth : ℝ) / 2
    rw [sub_self, zero_mul, zero_add, e2a, hpw]
    refine (abs_mul_sin_le _ (1429 / 3) (abs_self_le _ (by norm_num)) _).trans ?_
    norm_num
  · show |(-((pa.cx : ℝ) - (pa.cx : ℝ))) * Real.sin pa.rotation +
        (((pa.cy : ℝ) + (pb.cy : ℝ)) / 2 - (pa.cy : ℝ)) * Real.cos pa.rotation| ≤
      (photoHeight : ℝ) / 2
    rw [sub_self, neg_zero, zero_mul, zero_add, e2a, hph]
    refine (abs_mul_cos_le _ (1429 / 3) (abs_self_le _ (by norm_num)) _).trans ?_
    norm_num
  · show |((pa.cx : ℝ) - (pb.cx : ℝ)) * Real.cos pb.rotation +
        (((pa.cy : ℝ) + (pb.cy : ℝ)) / 2 - (pb.cy : ℝ)) * Real.sin pb.rotation| ≤
      (photoWidth : ℝ) / 2
    rw [hxR, sub_self, zero_mul, zero_add, e2b, hpw]
    refine (abs_mul_sin_le (-(1429 / 3)) (1429 / 3)
      (by rw [abs_neg]; exact abs_self_le _ (by norm_num)) _).trans ?_
    norm_num
  · show |(-((pa.cx : ℝ) - (pb.cx : ℝ))) * Real.sin pb.rotation +
        (((pa.cy : ℝ) + (pb.cy : ℝ)) / 2 - (pb.cy : ℝ)) * Real.cos pb.rotation| ≤
      (photoHeight : ℝ) / 2
    rw [hxR, sub_self, neg_zero, zero_mul, zero_add, e2b, hph]
    refine (abs_mul_cos_le (-(1429 / 3)) (1429 / 3)
      (by rw [abs_neg]; exact abs_self_le _ (by norm_num)) _).trans ?_
    norm_num

/-! ### Claim theorems: the lookbook layout -/

/-- Counterexample to C4 as stated: a non-empty mapping of K = 3 named
images, with every rotation equal to 0 (well within ±4.3°), in which the
panel of entry 0 and the panel of entry 2 — same column, adjacent rows —
visually overlap: the card height (1226.25) exceeds the vertical grid pitch
(cell height 852.67 + padding 100 = 952.67), so each card spills about 273.6
units into the cell below. -/
theorem lookbook_panels_overlap_counterexample :
    (0 < cxImageData.length ∧ cxImageData.length ≤ 6) ∧
    ((createLookbookPage cxImageData cxRand).panels.getD 0 defaultPanel).rotation = 0 ∧
    ((createLookbookPage cxImageData cxRand).panels.getD 2 defaultPanel).rotation = 0 ∧
    panelsOverlap
      ((createLookbookPage cxImageData cxRand).panels.getD 0 defaultPanel)
      ((createLookbookPage cxImageData cxRand).panels.getD 2 defaultPanel) := by
  have hrot : ∀ k : ℕ, (cxRand k - 0.5) * 0.15 = (0 : ℝ) := fun k => by
    norm_num [cxRand]
  refine ⟨⟨by decide, by decide⟩, ?_, ?_, ?_⟩
  · show (cxRand 0 - 0.5) * 0.15 = (0 : ℝ)
    exact hrot 0
  · show (cxRand 2 - 0.5) * 0.15 = (0 : ℝ)
    exact hrot 2
  · rw [panels_getD cxImageData cxRand 0 (by decide),
      panels_getD cxImageData cxRand 2 (by decide)]
    apply stacked_panels_overlap
    · show panelX 0 + photoWidth / 2 = panelX 2 + photoWidth / 2
      rw [panelCx, panelCx]
      norm_num [gridCols]
    · show panelY 2 + photoHeight / 2 - (panelY 0 + photoHeight / 2) = 2858 / 3
      rw [panelCy, panelCy]
      norm_num [gridCols]

/-- C4 (amended): for every non-empty mapping of K ≤ 6 named images and
every stream of `Math.random()` draws in [0, 1), `createLookbookPage`
produces exactly K placed panels, filled in iteration order of the mapping
into the 2-column grid with panel `i` at column `i % 2`, row `i / 2`, one
caption per panel equal to that entry's name (all via `panelOf`); two
panels in the same grid row never visually overlap (their rotations stay
within ±4.3°); but — contrary to the original claim — every panel overlaps
the panel two positions later (same column, adjacent row), whatever the
rotations, because the card height 1226.25 exceeds the vertical pitch
952.67. -/
theorem lookbook_layout_amended (imageData : List (String × String))
    (rand : ℕ → ℝ) (hpos : 0 < imageData.length)
    (hle : imageData.length ≤ 6) (hrand : ∀ k, 0 ≤ rand k ∧ rand k < 1) :
    (createLookbookPage imageData rand).panels.length = imageData.length ∧
    (∀ i, i < imageData.length →
      (createLookbookPage imageData rand).panels.getD i defaultPanel =
        panelOf rand i (imageData.getD i ("", "")).1) ∧
    (∀ i j, i < imageData.length → j < imageData.length → i ≠ j →
      i / gridCols = j / gridCols →
      ¬ panelsOverlap
        ((createLookbookPage imageData rand).panels.getD i defaultPanel)
        ((createLookbookPage imageData rand).panels.getD j defaultPanel)) ∧
    (∀ i, i + 2 < imageData.length →
      panelsOverlap
        ((createLookbookPage imageData rand).panels.getD i defaultPanel)
        ((createLookbookPage imageData rand).panels.getD (i + 2) defaultPanel)) := by
  refine ⟨createLookbook_length _ _, fun i hi => panels_getD _ _ i hi, ?_, ?_⟩
  · intro i j hi hj hij hrow
    rw [panels_getD _ _ i hi, panels_getD _ _ j hj]
    have hcase : (i % gridCols = 0 ∧ j % gridCols = 1) ∨
        (i % gridCols = 1 ∧ j % gridCols = 0) := by
      simp only [gridCols] at hrow ⊢
      omega
    refine same_row_no_overlap _ _ (3 / 40)
      (rotation_bound rand i (hrand i).1 (hrand i).2)
      (rotation_bound rand j (hrand j).1 (hrand j).2) ?_
    have hcxi : (panelOf rand i (imageData.getD i ("", "")).1).cx =
        1190 * ((i % gridCols : ℕ) : ℚ) + 645 := panelCx i
    have hcxj : (panelOf rand j (imageData.getD j ("", "")).1).cx =
        1190 * ((j % gridCols : ℕ) : ℚ) + 645 := panelCx j
    rw [hcxi, hcxj, ← Rat.cast_sub, ← Rat.cast_abs]
    have hq : |(1190 * ((j % gridCols : ℕ) : ℚ) + 645) -
        (1190 * ((i % gridCols : ℕ) : ℚ) + 645)| = 1190 := by
      rcases hcase with ⟨hi2, hj2⟩ | ⟨hi2, hj2⟩ <;> rw [hi2, hj2] <;> norm_num
    rw [hq]
    have hpw : (photoWidth : ℝ) = 981 := by
      rw [photoWidth_eq]; norm_num
    have hph : (photoHeight : ℝ) = 4905 / 4 := by
      rw [photoHeight_eq]; push_cast; ring
    rw [hpw, hph]
    norm_num
  · intro i hi2
    rw [panels_getD _ _ i (by omega), panels_getD _ _ (i + 2) hi2]
    apply stacked_panels_overlap
    · show panelX i + photoWidth / 2 = panelX (i + 2) + photoWidth / 2
      have hmod : (i + 2) % gridCols = i % gridCols := by
        simp only [gridCols]; omega
      rw [panelCx, panelCx, hmod]
    · show panelY (i + 2) + photoHeight / 2 - (panelY i + photoHeight / 2) =
        2858 / 3
      rw [panelCy, panelCy]
      have hdiv : (i + 2) / gridCols = i / gridCols + 1 := by
        simp only [gridCols]; omega
      rw [hdiv]
      push_cast
      ring

/-- Witness for C4 (amended): instantiated on the five archetype images
with all `Math.random()` draws equal to 0.5. -/
theorem lookbook_layout_amended_witness :
    (0 < okImageData.length ∧ okImageData.length ≤ 6) ∧
    (createLookbookPage okImageData cxRand).panels.length =
      okImageData.length := by
  have h := lookbook_layout_amended okImageData cxRand (by decide) (by decide)
    (fun k => by norm_num [cxRand])
  exact ⟨⟨by decide, by decide⟩, h.1⟩

end Hamburg84
